import Mathlib

/-!
Shallow embedding of `ai_diagrammer.py`, the single source file of the
`diagrammer` repository.  Text is modelled as `List Char` (Python `str`),
machine integers as `Int`/`Nat` (Python `int` is unbounded, so no modular
reduction is needed), and Python exceptions as `Except` errors.  Each
definition carries a comment naming the Python function or fragment it embeds.
-/

/-- Python strings, modelled as lists of characters. -/
abbrev Str := List Char

/-- The characters Python `str.strip()` removes: exactly the characters for
which `str.isspace()` holds. -/
def isPyWs (c : Char) : Bool :=
  c.val = 0x09 || c.val = 0x0a || c.val = 0x0b || c.val = 0x0c || c.val = 0x0d ||
  c.val = 0x1c || c.val = 0x1d || c.val = 0x1e || c.val = 0x1f || c.val = 0x20 ||
  c.val = 0x85 || c.val = 0xa0 || c.val = 0x1680 ||
  (0x2000 ≤ c.val && c.val ≤ 0x200a) ||
  c.val = 0x2028 || c.val = 0x2029 || c.val = 0x202f || c.val = 0x205f || c.val = 0x3000

/-- Python `str.strip()`: drop leading and trailing whitespace. -/
def pyStrip (s : Str) : Str :=
  ((s.dropWhile isPyWs).reverse.dropWhile isPyWs).reverse

/-- Case-insensitive character comparison, as `re.IGNORECASE` applies to the
ASCII letters of the patterns in `extract_svg_labels`. -/
def ciEq (a b : Char) : Bool := a.toLower = b.toLower

/-- Does `pat` occur, case-insensitively, as a prefix of `s`? -/
def ciPrefix : Str → Str → Bool
  | [], _ => true
  | _ :: _, [] => false
  | p :: ps, c :: cs => ciEq p c && ciPrefix ps cs

/-- Consume `[^>]*>`: scan to the first `>` and return what follows it, or
`none` if no `>` occurs.  This is the unique way the regex fragments
`[^>]*>` (after `<text`) and `[^>]+>` (after the first non-`>` character of a
stripped tag) can match, since `[^>]` cannot cross a `>`. -/
def scanToGt : Str → Option Str
  | [] => none
  | c :: rest => if c = '>' then some rest else scanToGt rest

/-- The lazy group `(.*?)</text>` of `re.finditer(r"<text[^>]*>(.*?)</text>", ...)`
with `re.DOTALL` and `re.IGNORECASE`: capture the shortest span up to the first
case-insensitive `</text>`, returning the captured span and the remainder after
the closing tag; `none` when no closing tag follows. -/
def takeUntilClose : Str → Option (Str × Str)
  | [] => none
  | c :: rest =>
    if ciPrefix ("</text>".toList) (c :: rest) then
      some ([], (c :: rest).drop 7)
    else
      match takeUntilClose rest with
      | some (content, rem) => some (c :: content, rem)
      | none => none

/-- `re.finditer(r"<text[^>]*>(.*?)</text>", svg_text, re.IGNORECASE | re.DOTALL)`:
the list of captured groups, leftmost-first and non-overlapping, resuming after
each match.  The `fuel` argument makes the recursion structural; every
recursive call strictly shrinks the input, so `fuel = input length` computes
the exact result (see `findTextSpans`). -/
def findTextSpansF : Nat → Str → List Str
  | 0, _ => []
  | _ + 1, [] => []
  | fuel + 1, c :: rest =>
    if ciPrefix ("<text".toList) (c :: rest) then
      match scanToGt ((c :: rest).drop 5) with
      | some afterOpen =>
        match takeUntilClose afterOpen with
        | some (content, rem) => content :: findTextSpansF fuel rem
        | none => findTextSpansF fuel rest
      | none => findTextSpansF fuel rest
    else findTextSpansF fuel rest

/-- All captured `<text ...>...</text>` spans of the source text. -/
def findTextSpans (s : Str) : List Str := findTextSpansF s.length s

/-- One match attempt of `re.sub(r"<[^>]+>", "", raw)` at a position just after
a `<`: at least one non-`>` character, then a `>`; returns the remainder after
the `>`, or `none` when the pattern cannot match here. -/
def findTagEnd : Str → Option Str
  | [] => none
  | c :: rest => if c = '>' then none else scanToGt rest

/-- `re.sub(r"<[^>]+>", "", raw)`: delete every (leftmost, non-overlapping)
markup tag.  Fueled like `findTextSpansF`; `fuel = input length` is exact. -/
def stripTagsF : Nat → Str → Str
  | 0, _ => []
  | _ + 1, [] => []
  | fuel + 1, c :: rest =>
    if c = '<' then
      match findTagEnd rest with
      | some rem => stripTagsF fuel rem
      | none => c :: stripTagsF fuel rest
    else c :: stripTagsF fuel rest

/-- Remove every `<[^>]+>` tag from a captured span. -/
def stripTags (s : Str) : Str := stripTagsF s.length s

/-- The loop body of `extract_svg_labels`: for each span, strip tags and
whitespace, skip empties, and stop once `max_labels` labels have been
collected (the Python code appends first and then tests
`len(labels) >= max_labels`).  `count` is the number of labels already
collected by the caller. -/
def collectLabels (max_labels : Nat) : List Str → Nat → List Str
  | [], _ => []
  | sp :: rest, count =>
    let label := pyStrip (stripTags sp)
    if label = [] then collectLabels max_labels rest count
    else if max_labels ≤ count + 1 then [label]
    else label :: collectLabels max_labels rest (count + 1)

/-- `extract_svg_labels(svg_text, max_labels)` from `ai_diagrammer.py`. -/
def extract_svg_labels (svg_text : Str) (max_labels : Nat) : List Str :=
  collectLabels max_labels (findTextSpans svg_text) 0

/-- Does the pattern `<[^>]+>` match at the start of `s`?  Equivalently: `s`
starts with `<`, the next character exists and is not `>`, and a `>` occurs
later. -/
def startsTagB : Str → Bool
  | [] => false
  | [_] => false
  | a :: c :: rest => decide (a = '<') && decide (c ≠ '>') && decide ('>' ∈ c :: rest)

/-- Does `s` contain a markup tag (an occurrence of `<[^>]+>`) anywhere? -/
def hasTag : Str → Bool
  | [] => false
  | c :: rest => startsTagB (c :: rest) || hasTag rest

/-- JSON values as produced by `json.loads` (numbers collapsed to `Int`; the
distinction between kinds of numbers is irrelevant to this program, which only
asks `isinstance(..., list)` and takes lengths). -/
inductive Json where
  | null
  | boolean (b : Bool)
  | num (n : Int)
  | str (s : String)
  | arr (elems : List Json)
  | obj (members : List (String × Json))

/-- Python dict lookup `payload.get(key)` built from a JSON object's member
list; on duplicate keys `json.loads` keeps the last occurrence, hence the
reversed search. -/
def dictFind? (members : List (String × Json)) (key : String) : Option Json :=
  (members.reverse.find? (fun kv => kv.fst == key)).map (fun kv => kv.snd)

/-- Python `payload.get(key, dflt)`. -/
def dictGetD (members : List (String × Json)) (key : String) (dflt : Json) : Json :=
  match dictFind? members key with
  | some v => v
  | none => dflt

/-- `len(x) if isinstance(x, list) else 0`. -/
def lenIfList : Json → Nat
  | Json.arr xs => xs.length
  | _ => 0

/-- The Python exceptions this program can raise or construct. -/
inductive PyErr where
  | attributeError
  | dependencyError
  | configurationError
  | serviceError (msg : String)
  deriving DecidableEq

/-- The observable input of `read_layout_stats`:
`absent` — `layout_path is None or not layout_path.is_file()`;
`failed` — `layout_path.read_text()` or `json.loads` raised (both are inside
the `try`);
`parsed v` — `json.loads` succeeded with value `v`. -/
inductive LayoutInput where
  | absent
  | failed
  | parsed (payload : Json)

/-- `read_layout_stats(layout_path)` from `ai_diagrammer.py`.  Note that the
`try/except` covers only reading and parsing; `payload.get` on a non-dict
parse result raises an uncaught `AttributeError`, modelled as `Except.error`. -/
def read_layout_stats : LayoutInput → Except PyErr (Nat × Nat)
  | LayoutInput.absent => Except.ok (0, 0)
  | LayoutInput.failed => Except.ok (0, 0)
  | LayoutInput.parsed (Json.obj members) =>
    Except.ok (lenIfList (dictGetD members "nodes" (Json.arr [])),
               lenIfList (dictGetD members "edges" (Json.arr [])))
  | LayoutInput.parsed _ => Except.error PyErr.attributeError

/-- Python `str(n)` for an `int`. -/
def intToStr (n : Int) : Str := (toString n).toList

/-- The three fixed opening lines of `build_prompt` plus the blank line and the
`Context:` header, in the order the code appends them. -/
def promptHead : List Str :=
  ["Create a polished hardware architecture block diagram image.".toList,
   "Use the supplied SVG as structural ground truth.".toList,
   "Preserve block names and connectivity intent.".toList,
   [],
   "Context:".toList]

/-- The conditional context body of `build_prompt`: one line per non-empty
scalar among config/level/block, a count line per positive count, and the
labels header plus one indented line per label; in the code's append order.
Python truthiness `if config:` is non-emptiness, and empty lists are produced
by the skipped `append` calls. -/
def ctxLines (labels : List Str) (node_count edge_count : Int)
    (config level block : Str) : List Str :=
  (if config = [] then [] else ["- CONFIG: ".toList ++ config]) ++
  (if level = [] then [] else ["- LEVEL: ".toList ++ level]) ++
  (if block = [] then [] else ["- BLOCK: ".toList ++ block]) ++
  (if node_count > 0 then
    ["- Approximate block count from layout JSON: ".toList ++ intToStr node_count]
   else []) ++
  (if edge_count > 0 then
    ["- Approximate edge count from layout JSON: ".toList ++ intToStr edge_count]
   else []) ++
  (if labels = [] then [] else
    "- Labels discovered in source SVG:".toList ::
      labels.map (fun l => "  - ".toList ++ l))

/-- The fixed lines `build_prompt` appends after the context body, up to and
including the source-excerpt header. -/
def promptTail : List Str :=
  [[],
   "Style constraints:".toList,
   "- clean professional engineering style".toList,
   "- white background".toList,
   "- crisp readable labels".toList,
   "- clear directional arrows".toList,
   "- balanced spacing".toList,
   "- no cartoon style".toList,
   "- no code snippets".toList,
   "- no electrical schematic symbols".toList,
   [],
   "Output requirements:".toList,
   "- Keep exact visible module names where possible.".toList,
   "- Preserve high-level topology from the source SVG.".toList,
   "- Improve visual clarity and slide-readability.".toList,
   [],
   "Source SVG (for structure reference):".toList]

/-- All lines of `build_prompt` except the final source excerpt. -/
def build_prompt_core (labels : List Str) (node_count edge_count : Int)
    (config level block : Str) : List Str :=
  promptHead ++ ctxLines labels node_count edge_count config level block ++ promptTail

/-- The full `lines` list of `build_prompt`; the last appended line is
`svg_text[:18000]`. -/
def build_prompt_lines (svg_text : Str) (labels : List Str)
    (node_count edge_count : Int) (config level block : Str) : List Str :=
  build_prompt_core labels node_count edge_count config level block ++
    [svg_text.take 18000]

/-- Python `"\n".join(lines)`. -/
def joinNL : List Str → Str
  | [] => []
  | [x] => x
  | x :: y :: rest => x ++ '\n' :: joinNL (y :: rest)

/-- `build_prompt(...)` from `ai_diagrammer.py`: the joined prompt document. -/
def build_prompt (svg_text : Str) (labels : List Str)
    (node_count edge_count : Int) (config level block : Str) : Str :=
  joinNL (build_prompt_lines svg_text labels node_count edge_count config level block)

/-- The environment `generate_image` observes: whether `from openai import
OpenAI` succeeds, whether `OPENAI_API_KEY` is set and non-empty, and the
outcome of the remote call.  The single `client.images.generate` request,
the access to `result.data[0].b64_json` and the base64 decode are modelled as
one effectful step yielding either the decoded image bytes or an exception. -/
structure GenEnv where
  openai_importable : Bool
  api_key_present : Bool
  service_response : Except String Str

/-- `generate_image(prompt, model, size)` from `ai_diagrammer.py`.  Returns the
outcome together with whether the remote call was attempted.  The order of the
checks mirrors the code: import first, then the credential, then the call. -/
def generate_image (env : GenEnv) : Except PyErr Str × Bool :=
  if env.openai_importable = false then (Except.error PyErr.dependencyError, false)
  else if env.api_key_present = false then (Except.error PyErr.configurationError, false)
  else
    match env.service_response with
    | Except.ok bytes => (Except.ok bytes, true)
    | Except.error msg => (Except.error (PyErr.serviceError msg), true)

/-- The environment `main` observes: `input_svg = none` models a missing input
file, `some s` its best-effort-decoded text; `layout` the layout file's state;
the three context scalars; and the generation environment. -/
structure Env where
  input_svg : Option Str
  layout : LayoutInput
  config : Str
  level : Str
  block : Str
  gen : GenEnv

/-- The files `main` wrote and whether the remote service was called.
`prompt_written`/`image_written` hold the final contents of the two output
files, `none` when the file was never written. -/
structure Effects where
  prompt_written : Option Str
  image_written : Option Str
  network_attempted : Bool

/-- `main()` from `ai_diagrammer.py`.  `Except.ok n` is a normal return of
`n` (raised by `SystemExit(main())`); `Except.error e` is an uncaught
exception.  The prompt file is written before `generate_image` runs, and the
image file only after it succeeds; directory creation and the success prints
are outside the model. -/
def py_main (e : Env) : Except PyErr Int × Effects :=
  match e.input_svg with
  | none => (Except.ok 2, ⟨none, none, false⟩)
  | some svg_text =>
    let labels := extract_svg_labels svg_text 80
    match read_layout_stats e.layout with
    | Except.error err => (Except.error err, ⟨none, none, false⟩)
    | Except.ok (node_count, edge_count) =>
      let prompt := build_prompt svg_text labels (node_count : Int) (edge_count : Int)
        e.config e.level e.block
      match generate_image e.gen with
      | (Except.error err, net) => (Except.error err, ⟨some prompt, none, net⟩)
      | (Except.ok bytes, net) => (Except.ok 0, ⟨some prompt, some bytes, net⟩)

/-- The process exit status produced by `raise SystemExit(main())`: the value
returned by `main`, or `1` when an exception escapes (CPython's exit status
for an unhandled exception). -/
def exit_status : Except PyErr Int → Int
  | Except.ok n => n
  | Except.error _ => 1

/-- The source text of the C7 scenario from the spec. -/
def c7_svg : Str := "<text>CPU</text><text>  </text><text>Memory</text>".toList

/-- The prompt lines the pipeline builds in the C7 scenario: extracted labels,
`(0, 0)` counts from the absent layout file, config `ChipyardDefault`,
level `L1`, empty block. -/
def c7_lines : List Str :=
  build_prompt_lines c7_svg (extract_svg_labels c7_svg 80) 0 0
    ("ChipyardDefault".toList) ("L1".toList) []

/-- A concrete environment for the C8 scenario: readable input, no layout
file, importable client library, but no credential in the environment. -/
def envC8 : Env :=
  ⟨some ("<text>CPU</text>".toList), LayoutInput.absent, "Cfg".toList, "L1".toList, [],
   ⟨true, false, Except.ok ("img".toList)⟩⟩

/-- A concrete environment for the C9 scenario: the input diagram file does
not exist. -/
def envC9 : Env := ⟨none, LayoutInput.absent, [], [], [], ⟨true, true, Except.ok []⟩⟩
-- ===== helper lemmas for extraction claims =====

lemma dropWhile_idem (p : Char → Bool) (l : Str) :
    (l.dropWhile p).dropWhile p = l.dropWhile p := by
  induction l with
  | nil => rfl
  | cons a l ih => by_cases h : p a <;> simp [List.dropWhile_cons, h, ih]

lemma dropWhile_head_not (p : Char → Bool) :
    ∀ (l : Str) c r, l.dropWhile p = c :: r → p c = false := by
  intro l
  induction l with
  | nil => intro c r h; simp at h
  | cons a l ih =>
    intro c r h
    by_cases ha : p a
    · rw [List.dropWhile_cons, if_pos ha] at h
      exact ih c r h
    · rw [List.dropWhile_cons, if_neg ha] at h
      injection h with h1 h2
      subst h1
      simpa using ha

lemma dropWhile_suffix_ex (p : Char → Bool) (l : Str) :
    ∃ u, u ++ l.dropWhile p = l := by
  induction l with
  | nil => exact ⟨[], rfl⟩
  | cons a l ih =>
    by_cases h : p a
    · obtain ⟨u, hu⟩ := ih
      exact ⟨a :: u, by simp [List.dropWhile_cons, h, hu]⟩
    · exact ⟨[], by simp [List.dropWhile_cons, h]⟩

lemma pyStrip_idem (s : Str) : pyStrip (pyStrip s) = pyStrip s := by
  unfold pyStrip
  obtain ⟨u2, hu2⟩ := dropWhile_suffix_ex isPyWs (s.dropWhile isPyWs).reverse
  set a := s.dropWhile isPyWs with ha
  set u := a.reverse.dropWhile isPyWs with hu
  have hta : u.reverse ++ u2.reverse = a := by
    have := congrArg List.reverse hu2
    simpa [List.reverse_append] using this
  have h1 : u.reverse.dropWhile isPyWs = u.reverse := by
    cases hur : u.reverse with
    | nil => rfl
    | cons c r =>
      have hac : a = c :: (r ++ u2.reverse) := by
        rw [← hta, hur]; simp
      have : isPyWs c = false := dropWhile_head_not isPyWs s c _ (by rw [← ha, hac])
      rw [List.dropWhile_cons, this]
      simp
  rw [h1, List.reverse_reverse, hu, dropWhile_idem]

lemma scanToGt_none : ∀ {l : Str}, scanToGt l = none → '>' ∉ l := by
  intro l
  induction l with
  | nil => intro _ h; simp at h
  | cons c rest ih =>
    intro h hm
    rw [scanToGt] at h
    by_cases hc : c = '>'
    · rw [if_pos hc] at h; cases h
    · rw [if_neg hc] at h
      rcases List.mem_cons.mp hm with h1 | h2
      · exact hc h1.symm
      · exact ih h h2

lemma scanToGt_mem : ∀ {l r : Str}, scanToGt l = some r → ∀ x, x ∈ r → x ∈ l := by
  intro l
  induction l with
  | nil => intro r h; cases h
  | cons c rest ih =>
    intro r h x hx
    rw [scanToGt] at h
    by_cases hc : c = '>'
    · rw [if_pos hc] at h
      injection h with h1
      exact List.mem_cons_of_mem _ (h1 ▸ hx)
    · rw [if_neg hc] at h
      exact List.mem_cons_of_mem _ (ih h x hx)

lemma findTagEnd_mem : ∀ {l r : Str}, findTagEnd l = some r → ∀ x, x ∈ r → x ∈ l := by
  intro l r h x hx
  cases l with
  | nil => cases h
  | cons c rest =>
    rw [findTagEnd] at h
    by_cases hc : c = '>'
    · rw [if_pos hc] at h; cases h
    · rw [if_neg hc] at h
      exact List.mem_cons_of_mem _ (scanToGt_mem h x hx)

lemma findTagEnd_none : ∀ {l : Str}, findTagEnd l = none →
    l = [] ∨ (∃ r, l = '>' :: r) ∨ '>' ∉ l := by
  intro l h
  cases l with
  | nil => exact Or.inl rfl
  | cons c rest =>
    rw [findTagEnd] at h
    by_cases hc : c = '>'
    · exact Or.inr (Or.inl ⟨rest, by rw [hc]⟩)
    · rw [if_neg hc] at h
      refine Or.inr (Or.inr ?_)
      intro hm
      rcases List.mem_cons.mp hm with h1 | h2
      · exact hc h1.symm
      · exact scanToGt_none h h2

lemma mem_stripTagsF : ∀ (fuel : Nat) (s : Str) (x : Char), x ∈ stripTagsF fuel s → x ∈ s := by
  intro fuel
  induction fuel with
  | zero => intro s x h; simp [stripTagsF] at h
  | succ fuel ih =>
    intro s x h
    cases s with
    | nil => simp [stripTagsF] at h
    | cons c rest =>
      rw [stripTagsF] at h
      by_cases hc : c = '<'
      · rw [if_pos hc] at h
        cases hf : findTagEnd rest with
        | some rem =>
          rw [hf] at h
          exact List.mem_cons_of_mem _ (findTagEnd_mem hf x (ih rem x h))
        | none =>
          rw [hf] at h
          rcases List.mem_cons.mp h with h1 | h2
          · exact h1 ▸ List.mem_cons_self _ _
          · exact List.mem_cons_of_mem _ (ih rest x h2)
      · rw [if_neg hc] at h
        rcases List.mem_cons.mp h with h1 | h2
        · exact h1 ▸ List.mem_cons_self _ _
        · exact List.mem_cons_of_mem _ (ih rest x h2)

lemma startsTagB_ne_lt {c : Char} (h : ¬ c = '<') (l : Str) : startsTagB (c :: l) = false := by
  cases l <;> simp [startsTagB, h]

lemma startsTagB_no_gt {c : Char} {l : Str} (h : '>' ∉ l) : startsTagB (c :: l) = false := by
  cases l with
  | nil => rfl
  | cons d r =>
    simp [startsTagB]
    intro _ _
    simp [List.mem_cons, not_or] at h
    exact h

lemma startsTagB_append {t : Str} (b : Str) (h : startsTagB t = true) :
    startsTagB (t ++ b) = true := by
  match t with
  | [] => simp [startsTagB] at h
  | [a] => simp [startsTagB] at h
  | a :: c :: rest =>
    simp only [startsTagB, Bool.and_eq_true, decide_eq_true_eq] at h
    rcases h with ⟨⟨h1, h2⟩, h3⟩
    show startsTagB (a :: c :: (rest ++ b)) = true
    simp only [startsTagB, Bool.and_eq_true, decide_eq_true_eq]
    refine ⟨⟨h1, h2⟩, ?_⟩
    rcases List.mem_cons.mp h3 with h4 | h4
    · exact List.mem_cons.mpr (Or.inl h4)
    · exact List.mem_cons.mpr (Or.inr (List.mem_append_left _ h4))

lemma hasTag_append_l {a : Str} (b : Str) (h : hasTag a = true) :
    hasTag (a ++ b) = true := by
  induction a with
  | nil => simp [hasTag] at h
  | cons c rest ih =>
    rw [hasTag] at h
    rw [List.cons_append, hasTag]
    rcases Bool.or_eq_true_iff.mp h with h1 | h2
    · rw [← List.cons_append]
      exact Bool.or_eq_true_iff.mpr (Or.inl (startsTagB_append b h1))
    · exact Bool.or_eq_true_iff.mpr (Or.inr (ih h2))

lemma hasTag_append_r (a : Str) {b : Str} (h : hasTag b = true) :
    hasTag (a ++ b) = true := by
  induction a with
  | nil => simpa using h
  | cons c rest ih =>
    rw [List.cons_append, hasTag]
    exact Bool.or_eq_true_iff.mpr (Or.inr ih)

lemma hasTag_false_left {a b : Str} (h : hasTag (a ++ b) = false) : hasTag a = false := by
  cases ha : hasTag a with
  | false => rfl
  | true => rw [hasTag_append_l b ha] at h; cases h

lemma hasTag_false_right {a b : Str} (h : hasTag (a ++ b) = false) : hasTag b = false := by
  cases hb : hasTag b with
  | false => rfl
  | true => rw [hasTag_append_r a hb] at h; cases h

lemma hasTag_stripTagsF : ∀ (fuel : Nat) (s : Str), hasTag (stripTagsF fuel s) = false := by
  intro fuel
  induction fuel with
  | zero => intro s; rfl
  | succ fuel ih =>
    intro s
    cases s with
    | nil => rfl
    | cons c rest =>
      rw [stripTagsF]
      by_cases hc : c = '<'
      · rw [if_pos hc]
        cases hf : findTagEnd rest with
        | some rem => exact ih rem
        | none =>
          rw [hasTag]
          have h2 := ih rest
          have h1 : startsTagB (c :: stripTagsF fuel rest) = false := by
            rcases findTagEnd_none hf with hn | ⟨r, hr⟩ | hn
            · subst hn
              cases fuel <;> rfl
            · subst hr
              cases fuel with
              | zero => rfl
              | succ f =>
                rw [stripTagsF, if_neg (by decide)]
                simp [startsTagB]
            · have hng : '>' ∉ stripTagsF fuel rest :=
                fun hm => hn (mem_stripTagsF fuel rest _ hm)
              exact startsTagB_no_gt hng
          rw [h1, h2]
          rfl
      · rw [if_neg hc, hasTag]
        rw [startsTagB_ne_lt hc, ih rest]
        rfl

lemma hasTag_pyStrip {s : Str} (h : hasTag s = false) : hasTag (pyStrip s) = false := by
  obtain ⟨u1, hu1⟩ := dropWhile_suffix_ex isPyWs s
  obtain ⟨u2, hu2⟩ := dropWhile_suffix_ex isPyWs (s.dropWhile isPyWs).reverse
  have ha : hasTag (s.dropWhile isPyWs) = false := by
    rw [← hu1] at h
    exact hasTag_false_right h
  have hta : pyStrip s ++ u2.reverse = s.dropWhile isPyWs := by
    have := congrArg List.reverse hu2
    simpa [pyStrip, List.reverse_append] using this
  rw [← hta] at ha
  exact hasTag_false_left ha

lemma collectLabels_length (m : Nat) :
    ∀ (spans : List Str) (count : Nat), count < m →
      count + (collectLabels m spans count).length ≤ m := by
  intro spans
  induction spans with
  | nil =>
    intro count h
    simp only [collectLabels, List.length_nil]
    omega
  | cons sp rest ih =>
    intro count hc
    by_cases hl : pyStrip (stripTags sp) = []
    · simp only [collectLabels, if_pos hl]
      exact ih count hc
    · by_cases hm : m ≤ count + 1
      · simp only [collectLabels, if_neg hl, if_pos hm, List.length_singleton]
        omega
      · simp only [collectLabels, if_neg hl, if_neg hm, List.length_cons]
        have := ih (count + 1) (by omega)
        omega

lemma collectLabels_mem (m : Nat) :
    ∀ (spans : List Str) (count : Nat) (l : Str), l ∈ collectLabels m spans count →
      ∃ sp, sp ∈ spans ∧ l = pyStrip (stripTags sp) ∧ l ≠ [] := by
  intro spans
  induction spans with
  | nil => intro count l h; simp [collectLabels] at h
  | cons sp rest ih =>
    intro count l h
    by_cases hl : pyStrip (stripTags sp) = []
    · simp only [collectLabels, if_pos hl] at h
      obtain ⟨sp2, hmem, heq, hne⟩ := ih count l h
      exact ⟨sp2, List.mem_cons_of_mem _ hmem, heq, hne⟩
    · by_cases hm : m ≤ count + 1
      · simp only [collectLabels, if_neg hl, if_pos hm, List.mem_singleton] at h
        exact ⟨sp, List.mem_cons_self _ _, h, h ▸ hl⟩
      · simp only [collectLabels, if_neg hl, if_neg hm, List.mem_cons] at h
        rcases h with h | h
        · exact ⟨sp, List.mem_cons_self _ _, h, h ▸ hl⟩
        · obtain ⟨sp2, hmem, heq, hne⟩ := ih (count + 1) l h
          exact ⟨sp2, List.mem_cons_of_mem _ hmem, heq, hne⟩

lemma collectLabels_mono (m1 m2 : Nat) (hm : m1 ≤ m2) :
    ∀ (spans : List Str) (count : Nat),
      ∃ t, collectLabels m1 spans count ++ t = collectLabels m2 spans count := by
  intro spans
  induction spans with
  | nil => intro count; exact ⟨[], rfl⟩
  | cons sp rest ih =>
    intro count
    by_cases hl : pyStrip (stripTags sp) = []
    · simpa only [collectLabels, if_pos hl] using ih count
    · by_cases h1 : m1 ≤ count + 1
      · by_cases h2 : m2 ≤ count + 1
        · exact ⟨[], by simp only [collectLabels, if_neg hl, if_pos h1, if_pos h2]; rfl⟩
        · refine ⟨collectLabels m2 rest (count + 1), ?_⟩
          simp only [collectLabels, if_neg hl, if_pos h1, if_neg h2]
          rfl
      · have h2 : ¬ m2 ≤ count + 1 := by omega
        obtain ⟨t, ht⟩ := ih (count + 1)
        refine ⟨t, ?_⟩
        simp only [collectLabels, if_neg hl, if_neg h1, if_neg h2, List.cons_append, ht]

-- ===== helper lemmas for prompt-structure claims =====

lemma not_mem_by_getElem {i : Nat} {x : Str} {c : Char} {L : List Str}
    (hx : x[i]? = some c) (hL : ∀ y ∈ L, y[i]? ≠ some c) : x ∉ L :=
  fun hm => hL x hm hx

lemma ne_lit_of_getElem {i : Nat} {x y : Str} {c : Char}
    (hx : x[i]? = some c) (hne : y[i]? ≠ some c) : x ≠ y := by
  intro h
  rw [h] at hx
  exact hne hx

lemma ne_append_of_getElem {i : Nat} {x q : Str} {c : Char} (t : Str)
    (hx : x[i]? = some c) (hq : i < q.length) (hne : q[i]? ≠ some c) : x ≠ q ++ t := by
  intro h
  rw [h, List.getElem?_append_left hq] at hx
  exact hne hx

lemma getElem_append_of_lit {q : Str} (t : Str) {i : Nat} {d : Char}
    (h : i < q.length) (hq : q[i]? = some d) : (q ++ t)[i]? = some d := by
  rw [List.getElem?_append_left h]
  exact hq

lemma not_mem_ite_of_not_mem {c : Prop} [Decidable c] {x : Str} {l1 l2 : List Str}
    (h1 : x ∉ l1) (h2 : x ∉ l2) : x ∉ (if c then l1 else l2) := by
  split
  · exact h1
  · exact h2

lemma not_mem_singleton_of_ne {x y : Str} (h : x ≠ y) : x ∉ ([y] : List Str) := by
  simp [h]

lemma not_mem_label_section {x : Str} {labels : List Str}
    (hh : x ≠ "- Labels discovered in source SVG:".toList)
    (hl : ∀ lab : Str, x ≠ "  - ".toList ++ lab) :
    x ∉ ((if labels = [] then [] else
      "- Labels discovered in source SVG:".toList ::
        labels.map (fun l => "  - ".toList ++ l)) : List Str) := by
  intro hm
  split at hm
  · simp at hm
  · rcases List.mem_cons.mp hm with h | h
    · exact hh h
    · obtain ⟨lab, -, hlab⟩ := List.mem_map.mp h
      exact hl lab hlab.symm

lemma mem_dropLast_build (x : Str) (svg : Str) (labels : List Str) (nc ec : Int)
    (cfg lvl blk : Str) :
    x ∈ (build_prompt_lines svg labels nc ec cfg lvl blk).dropLast ↔
      x ∈ promptHead ∨ x ∈ ctxLines labels nc ec cfg lvl blk ∨ x ∈ promptTail := by
  rw [build_prompt_lines, List.dropLast_concat, build_prompt_core]
  simp [List.mem_append]

lemma joinNL_concat : ∀ (l : List Str) (x : Str), ∃ f, joinNL (l ++ [x]) = f ++ x := by
  intro l
  induction l with
  | nil => intro x; exact ⟨[], rfl⟩
  | cons a l ih =>
    intro x
    cases l with
    | nil => exact ⟨a ++ ['\n'], by simp [joinNL]⟩
    | cons b l2 =>
      obtain ⟨f, hf⟩ := ih x
      refine ⟨a ++ '\n' :: f, ?_⟩
      rw [List.cons_append] at hf
      rw [List.cons_append, List.cons_append, joinNL, hf]
      simp


/-- Claim C1 (code bug): absence of the layout path and read/parse failure do
degrade `read_layout_stats` to `(0, 0)`, but a layout file whose content is
valid structured text that is not a mapping (here the JSON list `[1, 2]`)
makes `payload.get` raise an uncaught `AttributeError`, aborting the run
instead of degrading to `(0, 0)`. -/
theorem C1_layout_nonmapping_raises :
    read_layout_stats LayoutInput.absent = Except.ok (0, 0) ∧
    read_layout_stats LayoutInput.failed = Except.ok (0, 0) ∧
    read_layout_stats (LayoutInput.parsed (Json.arr [Json.num 1, Json.num 2])) =
      Except.error PyErr.attributeError :=
  ⟨rfl, rfl, rfl⟩

/-- Claim C2, counterexample: with `max_labels = 0` the extractor still
returns one label on `<text>CPU</text>` (the code appends before testing the
cap), so "at most `maxLabels` entries for every `maxLabels` value" is false. -/
theorem C2_counterexample :
    ¬ ((extract_svg_labels ("<text>CPU</text>".toList) 0).length ≤ 0) := by decide

/-- Claim C2 (amended): for every source text and every positive `maxLabels`,
`extract_svg_labels` returns at most `maxLabels` entries, each of which is
non-empty after trimming and contains no markup tag. -/
theorem C2_extract_labels_props (svg : Str) (m : Nat) (hm : 1 ≤ m) :
    (extract_svg_labels svg m).length ≤ m ∧
    ∀ l, l ∈ extract_svg_labels svg m → pyStrip l ≠ [] ∧ hasTag l = false := by
  constructor
  · have := collectLabels_length m (findTextSpans svg) 0 hm
    simpa [extract_svg_labels] using this
  · intro l hl
    obtain ⟨sp, _, heq, hne⟩ := collectLabels_mem m (findTextSpans svg) 0 l hl
    constructor
    · rw [heq, pyStrip_idem]
      exact heq ▸ hne
    · rw [heq]
      exact hasTag_pyStrip (hasTag_stripTagsF _ _)

/-- Claim C2, witness: the amended theorem applied at a concrete source and
the default cap 80. -/
theorem C2_witness :
    (1 ≤ 80) ∧
    ((extract_svg_labels ("<text>CPU</text><text>RAM</text>".toList) 80).length ≤ 80 ∧
      ∀ l, l ∈ extract_svg_labels ("<text>CPU</text><text>RAM</text>".toList) 80 →
        pyStrip l ≠ [] ∧ hasTag l = false) :=
  ⟨by decide, C2_extract_labels_props _ 80 (by decide)⟩

/-- Claim C3: `read_layout_stats` returns `(0, 0)` on an absent path and on
unreadable or unparseable content; when the content parses to a mapping it
returns the length of each of the `nodes`/`edges` fields that is present and
sequence-typed, and `0` for a field that is absent or not sequence-typed. -/
theorem C3_read_layout_stats_spec :
    read_layout_stats LayoutInput.absent = Except.ok (0, 0) ∧
    read_layout_stats LayoutInput.failed = Except.ok (0, 0) ∧
    (∀ members xs ys,
      dictFind? members "nodes" = some (Json.arr xs) →
      dictFind? members "edges" = some (Json.arr ys) →
      read_layout_stats (LayoutInput.parsed (Json.obj members)) =
        Except.ok (xs.length, ys.length)) ∧
    (∀ members, (∀ xs, dictFind? members "nodes" ≠ some (Json.arr xs)) →
      ∃ ec, read_layout_stats (LayoutInput.parsed (Json.obj members)) =
        Except.ok (0, ec)) ∧
    (∀ members, (∀ ys, dictFind? members "edges" ≠ some (Json.arr ys)) →
      ∃ nc, read_layout_stats (LayoutInput.parsed (Json.obj members)) =
        Except.ok (nc, 0)) := by
  refine ⟨rfl, rfl, ?_, ?_, ?_⟩
  · intro members xs ys h1 h2
    simp [read_layout_stats, dictGetD, h1, h2, lenIfList]
  · intro members h
    refine ⟨lenIfList (dictGetD members "edges" (Json.arr [])), ?_⟩
    cases hfind : dictFind? members "nodes" with
    | none => simp [read_layout_stats, dictGetD, hfind, lenIfList]
    | some v =>
      cases v with
      | arr xs => exact absurd hfind (h xs)
      | _ => simp [read_layout_stats, dictGetD, hfind, lenIfList]
  · intro members h
    refine ⟨lenIfList (dictGetD members "nodes" (Json.arr [])), ?_⟩
    cases hfind : dictFind? members "edges" with
    | none => simp [read_layout_stats, dictGetD, hfind, lenIfList]
    | some v =>
      cases v with
      | arr ys => exact absurd hfind (h ys)
      | _ => simp [read_layout_stats, dictGetD, hfind, lenIfList]

/-- Claim C3, witness: the mapping case applied at the spec's example
`nodes: [a, b, c]`, `edges: [x, y]`, giving `(3, 2)`. -/
theorem C3_witness :
    read_layout_stats (LayoutInput.parsed (Json.obj
      [("nodes", Json.arr [Json.str "a", Json.str "b", Json.str "c"]),
       ("edges", Json.arr [Json.str "x", Json.str "y"])])) = Except.ok (3, 2) :=
  C3_read_layout_stats_spec.2.2.1
    [("nodes", Json.arr [Json.str "a", Json.str "b", Json.str "c"]),
     ("edges", Json.arr [Json.str "x", Json.str "y"])]
    [Json.str "a", Json.str "b", Json.str "c"] [Json.str "x", Json.str "y"]
    (by rfl) (by rfl)
/-- Claim C4: among the prompt's lines (all but the final source-excerpt
line, which copies arbitrary source text), the config, level and block context
lines appear iff the corresponding argument is non-empty, the node-count and
edge-count lines appear iff the corresponding count is positive, and the
labels header appears iff the label sequence is non-empty; the `Context:`
header line is always present. -/
theorem C4_context_line_omission (svg : Str) (labels : List Str)
    (node_count edge_count : Int) (config level block : Str) :
    "Context:".toList ∈ build_prompt_lines svg labels node_count edge_count config level block ∧
    (("- CONFIG: ".toList ++ config ∈
        (build_prompt_lines svg labels node_count edge_count config level block).dropLast) ↔
      config ≠ []) ∧
    (("- LEVEL: ".toList ++ level ∈
        (build_prompt_lines svg labels node_count edge_count config level block).dropLast) ↔
      level ≠ []) ∧
    (("- BLOCK: ".toList ++ block ∈
        (build_prompt_lines svg labels node_count edge_count config level block).dropLast) ↔
      block ≠ []) ∧
    (("- Approximate block count from layout JSON: ".toList ++ intToStr node_count ∈
        (build_prompt_lines svg labels node_count edge_count config level block).dropLast) ↔
      0 < node_count) ∧
    (("- Approximate edge count from layout JSON: ".toList ++ intToStr edge_count ∈
        (build_prompt_lines svg labels node_count edge_count config level block).dropLast) ↔
      0 < edge_count) ∧
    (("- Labels discovered in source SVG:".toList ∈
        (build_prompt_lines svg labels node_count edge_count config level block).dropLast) ↔
      labels ≠ []) := by
  refine ⟨?_, ⟨?_, ?_⟩, ⟨?_, ?_⟩, ⟨?_, ?_⟩, ⟨?_, ?_⟩, ⟨?_, ?_⟩, ⟨?_, ?_⟩⟩
  · rw [build_prompt_lines, build_prompt_core]
    exact List.mem_append_left _ (List.mem_append_left _ (List.mem_append_left _
      (show ("Context:".toList : Str) ∈ promptHead by decide)))
  -- CONFIG, backward
  · intro hmem
    by_contra hc
    subst hc
    rw [mem_dropLast_build] at hmem
    have hx : ("- CONFIG: ".toList ++ ([] : Str))[2]? = some 'C' :=
      getElem_append_of_lit _ (by decide) (by decide)
    rcases hmem with h | h | h
    · exact not_mem_by_getElem hx (by decide) h
    · simp only [ctxLines, List.mem_append] at h
      rcases h with ((((h | h) | h) | h) | h) | h
      · simp at h
      · exact not_mem_ite_of_not_mem (by simp) (not_mem_singleton_of_ne
          (ne_append_of_getElem _ hx (by decide) (by decide))) h
      · exact not_mem_ite_of_not_mem (by simp) (not_mem_singleton_of_ne
          (ne_append_of_getElem _ hx (by decide) (by decide))) h
      · exact not_mem_ite_of_not_mem (not_mem_singleton_of_ne
          (ne_append_of_getElem _ hx (by decide) (by decide))) (by simp) h
      · exact not_mem_ite_of_not_mem (not_mem_singleton_of_ne
          (ne_append_of_getElem _ hx (by decide) (by decide))) (by simp) h
      · exact not_mem_label_section (ne_lit_of_getElem hx (by decide))
          (fun lab => ne_append_of_getElem _ hx (by decide) (by decide)) h
    · exact not_mem_by_getElem hx (by decide) h
  -- CONFIG, forward
  · intro hc
    rw [mem_dropLast_build]
    refine Or.inr (Or.inl ?_)
    simp only [ctxLines, List.mem_append]
    refine Or.inl (Or.inl (Or.inl (Or.inl (Or.inl ?_))))
    rw [if_neg hc]
    exact List.mem_singleton_self _
  -- LEVEL, backward
  · intro hmem
    by_contra hc
    subst hc
    rw [mem_dropLast_build] at hmem
    have hx : ("- LEVEL: ".toList ++ ([] : Str))[2]? = some 'L' :=
      getElem_append_of_lit _ (by decide) (by decide)
    have hx3 : ("- LEVEL: ".toList ++ ([] : Str))[3]? = some 'E' :=
      getElem_append_of_lit _ (by decide) (by decide)
    rcases hmem with h | h | h
    · exact not_mem_by_getElem hx (by decide) h
    · simp only [ctxLines, List.mem_append] at h
      rcases h with ((((h | h) | h) | h) | h) | h
      · exact not_mem_ite_of_not_mem (by simp) (not_mem_singleton_of_ne
          (ne_append_of_getElem _ hx (by decide) (by decide))) h
      · simp at h
      · exact not_mem_ite_of_not_mem (by simp) (not_mem_singleton_of_ne
          (ne_append_of_getElem _ hx (by decide) (by decide))) h
      · exact not_mem_ite_of_not_mem (not_mem_singleton_of_ne
          (ne_append_of_getElem _ hx (by decide) (by decide))) (by simp) h
      · exact not_mem_ite_of_not_mem (not_mem_singleton_of_ne
          (ne_append_of_getElem _ hx (by decide) (by decide))) (by simp) h
      · exact not_mem_label_section (ne_lit_of_getElem hx3 (by decide))
          (fun lab => ne_append_of_getElem _ hx (by decide) (by decide)) h
    · exact not_mem_by_getElem hx (by decide) h
  -- LEVEL, forward
  · intro hc
    rw [mem_dropLast_build]
    refine Or.inr (Or.inl ?_)
    simp only [ctxLines, List.mem_append]
    refine Or.inl (Or.inl (Or.inl (Or.inl (Or.inr ?_))))
    rw [if_neg hc]
    exact List.mem_singleton_self _
  -- BLOCK, backward
  · intro hmem
    by_contra hc
    subst hc
    rw [mem_dropLast_build] at hmem
    have hx : ("- BLOCK: ".toList ++ ([] : Str))[2]? = some 'B' :=
      getElem_append_of_lit _ (by decide) (by decide)
    rcases hmem with h | h | h
    · exact not_mem_by_getElem hx (by decide) h
    · simp only [ctxLines, List.mem_append] at h
      rcases h with ((((h | h) | h) | h) | h) | h
      · exact not_mem_ite_of_not_mem (by simp) (not_mem_singleton_of_ne
          (ne_append_of_getElem _ hx (by decide) (by decide))) h
      · exact not_mem_ite_of_not_mem (by simp) (not_mem_singleton_of_ne
          (ne_append_of_getElem _ hx (by decide) (by decide))) h
      · simp at h
      · exact not_mem_ite_of_not_mem (not_mem_singleton_of_ne
          (ne_append_of_getElem _ hx (by decide) (by decide))) (by simp) h
      · exact not_mem_ite_of_not_mem (not_mem_singleton_of_ne
          (ne_append_of_getElem _ hx (by decide) (by decide))) (by simp) h
      · exact not_mem_label_section (ne_lit_of_getElem hx (by decide))
          (fun lab => ne_append_of_getElem _ hx (by decide) (by decide)) h
    · exact not_mem_by_getElem hx (by decide) h
  -- BLOCK, forward
  · intro hc
    rw [mem_dropLast_build]
    refine Or.inr (Or.inl ?_)
    simp only [ctxLines, List.mem_append]
    refine Or.inl (Or.inl (Or.inl (Or.inr ?_)))
    rw [if_neg hc]
    exact List.mem_singleton_self _
  -- node count, backward
  · intro hmem
    by_contra hn
    rw [mem_dropLast_build] at hmem
    have hx : ("- Approximate block count from layout JSON: ".toList ++ intToStr node_count)[2]? = some 'A' :=
      getElem_append_of_lit _ (by decide) (by decide)
    have hx14 : ("- Approximate block count from layout JSON: ".toList ++ intToStr node_count)[14]? = some 'b' :=
      getElem_append_of_lit _ (by decide) (by decide)
    rcases hmem with h | h | h
    · exact not_mem_by_getElem hx (by decide) h
    · simp only [ctxLines, List.mem_append] at h
      rcases h with ((((h | h) | h) | h) | h) | h
      · exact not_mem_ite_of_not_mem (by simp) (not_mem_singleton_of_ne
          (ne_append_of_getElem _ hx (by decide) (by decide))) h
      · exact not_mem_ite_of_not_mem (by simp) (not_mem_singleton_of_ne
          (ne_append_of_getElem _ hx (by decide) (by decide))) h
      · exact not_mem_ite_of_not_mem (by simp) (not_mem_singleton_of_ne
          (ne_append_of_getElem _ hx (by decide) (by decide))) h
      · rw [if_neg hn] at h
        simp at h
      · exact not_mem_ite_of_not_mem (not_mem_singleton_of_ne
          (ne_append_of_getElem _ hx14 (by decide) (by decide))) (by simp) h
      · exact not_mem_label_section (ne_lit_of_getElem hx (by decide))
          (fun lab => ne_append_of_getElem _ hx (by decide) (by decide)) h
    · exact not_mem_by_getElem hx (by decide) h
  -- node count, forward
  · intro hn
    rw [mem_dropLast_build]
    refine Or.inr (Or.inl ?_)
    simp only [ctxLines, List.mem_append]
    refine Or.inl (Or.inl (Or.inr ?_))
    rw [if_pos hn]
    exact List.mem_singleton_self _
  -- edge count, backward
  · intro hmem
    by_contra hn
    rw [mem_dropLast_build] at hmem
    have hx : ("- Approximate edge count from layout JSON: ".toList ++ intToStr edge_count)[2]? = some 'A' :=
      getElem_append_of_lit _ (by decide) (by decide)
    have hx14 : ("- Approximate edge count from layout JSON: ".toList ++ intToStr edge_count)[14]? = some 'e' :=
      getElem_append_of_lit _ (by decide) (by decide)
    rcases hmem with h | h | h
    · exact not_mem_by_getElem hx (by decide) h
    · simp only [ctxLines, List.mem_append] at h
      rcases h with ((((h | h) | h) | h) | h) | h
      · exact not_mem_ite_of_not_mem (by simp) (not_mem_singleton_of_ne
          (ne_append_of_getElem _ hx (by decide) (by decide))) h
      · exact not_mem_ite_of_not_mem (by simp) (not_mem_singleton_of_ne
          (ne_append_of_getElem _ hx (by decide) (by decide))) h
      · exact not_mem_ite_of_not_mem (by simp) (not_mem_singleton_of_ne
          (ne_append_of_getElem _ hx (by decide) (by decide))) h
      · exact not_mem_ite_of_not_mem (not_mem_singleton_of_ne
          (ne_append_of_getElem _ hx14 (by decide) (by decide))) (by simp) h
      · rw [if_neg hn] at h
        simp at h
      · exact not_mem_label_section (ne_lit_of_getElem hx (by decide))
          (fun lab => ne_append_of_getElem _ hx (by decide) (by decide)) h
    · exact not_mem_by_getElem hx (by decide) h
  -- edge count, forward
  · intro hn
    rw [mem_dropLast_build]
    refine Or.inr (Or.inl ?_)
    simp only [ctxLines, List.mem_append]
    refine Or.inl (Or.inr ?_)
    rw [if_pos hn]
    exact List.mem_singleton_self _
  -- labels header, backward
  · intro hmem
    by_contra hl
    subst hl
    rw [mem_dropLast_build] at hmem
    have hx : ("- Labels discovered in source SVG:".toList : Str)[2]? = some 'L' := by decide
    have hx3 : ("- Labels discovered in source SVG:".toList : Str)[3]? = some 'a' := by decide
    rcases hmem with h | h | h
    · exact not_mem_by_getElem hx (by decide) h
    · simp only [ctxLines, List.mem_append] at h
      rcases h with ((((h | h) | h) | h) | h) | h
      · exact not_mem_ite_of_not_mem (by simp) (not_mem_singleton_of_ne
          (ne_append_of_getElem _ hx (by decide) (by decide))) h
      · exact not_mem_ite_of_not_mem (by simp) (not_mem_singleton_of_ne
          (ne_append_of_getElem _ hx3 (by decide) (by decide))) h
      · exact not_mem_ite_of_not_mem (by simp) (not_mem_singleton_of_ne
          (ne_append_of_getElem _ hx (by decide) (by decide))) h
      · exact not_mem_ite_of_not_mem (not_mem_singleton_of_ne
          (ne_append_of_getElem _ hx (by decide) (by decide))) (by simp) h
      · exact not_mem_ite_of_not_mem (not_mem_singleton_of_ne
          (ne_append_of_getElem _ hx (by decide) (by decide))) (by simp) h
      · simp at h
    · exact not_mem_by_getElem hx (by decide) h
  -- labels header, forward
  · intro hl
    rw [mem_dropLast_build]
    refine Or.inr (Or.inl ?_)
    simp only [ctxLines, List.mem_append]
    refine Or.inr ?_
    rw [if_neg hl]
    exact List.mem_cons_self _ _


/-- Claim C5: the source excerpt `build_prompt` embeds as the last line of the
prompt document is a prefix of the original source text, never exceeds 18000
characters, and the prompt document ends with it. -/
theorem C5_excerpt_bounded (svg : Str) (labels : List Str) (nc ec : Int)
    (cfg lvl blk : Str) :
    ∃ front,
      build_prompt svg labels nc ec cfg lvl blk =
        front ++ (build_prompt_lines svg labels nc ec cfg lvl blk).getLastD [] ∧
      (∃ rest, (build_prompt_lines svg labels nc ec cfg lvl blk).getLastD [] ++ rest = svg) ∧
      ((build_prompt_lines svg labels nc ec cfg lvl blk).getLastD []).length ≤ 18000 := by
  have hlast : (build_prompt_lines svg labels nc ec cfg lvl blk).getLastD [] = svg.take 18000 := by
    rw [build_prompt_lines]
    exact List.getLastD_concat _ _ _
  obtain ⟨f, hf⟩ := joinNL_concat (build_prompt_core labels nc ec cfg lvl blk) (svg.take 18000)
  refine ⟨f, ?_, ?_, ?_⟩
  · rw [build_prompt, hlast, build_prompt_lines]
    exact hf
  · rw [hlast]
    exact ⟨svg.drop 18000, List.take_append_drop _ _⟩
  · rw [hlast, List.length_take]
    exact min_le_left _ _

/-- Claim C6: `build_prompt` is deterministic; two calls with identical
arguments produce identical prompt documents. -/
theorem C6_build_prompt_deterministic
    (s1 s2 : Str) (ls1 ls2 : List Str) (n1 n2 e1 e2 : Int) (c1 c2 l1 l2 b1 b2 : Str)
    (hs : s1 = s2) (hls : ls1 = ls2) (hn : n1 = n2) (he : e1 = e2)
    (hc : c1 = c2) (hl : l1 = l2) (hb : b1 = b2) :
    build_prompt s1 ls1 n1 e1 c1 l1 b1 = build_prompt s2 ls2 n2 e2 c2 l2 b2 := by
  subst hs hls hn he hc hl hb
  rfl

/-- Claim C6, witness: the determinism theorem applied at one concrete
argument tuple. -/
theorem C6_witness :
    build_prompt ("<svg/>".toList) [] 0 0 [] [] [] =
      build_prompt ("<svg/>".toList) [] 0 0 [] [] [] :=
  C6_build_prompt_deterministic _ _ _ _ _ _ _ _ _ _ _ _ _ _ rfl rfl rfl rfl rfl rfl rfl

/-- Claim C7: on the source `<text>CPU</text><text>  </text><text>Memory</text>`
with no layout file, config `ChipyardDefault`, level `L1`, empty block, the
extracted labels are exactly `CPU` then `Memory`, the counts are `(0, 0)`, and
the built prompt has the config and level lines, no block line, no count
lines, and a labels section listing `CPU` before `Memory`. -/
theorem C7_scenario :
    extract_svg_labels c7_svg 80 = ["CPU".toList, "Memory".toList] ∧
    read_layout_stats LayoutInput.absent = Except.ok (0, 0) ∧
    "- CONFIG: ChipyardDefault".toList ∈ c7_lines ∧
    "- LEVEL: L1".toList ∈ c7_lines ∧
    (∀ l ∈ c7_lines, ("- BLOCK: ".toList).isPrefixOf l = false) ∧
    (∀ l ∈ c7_lines, ("- Approximate block count".toList).isPrefixOf l = false) ∧
    (∀ l ∈ c7_lines, ("- Approximate edge count".toList).isPrefixOf l = false) ∧
    "- Labels discovered in source SVG:".toList ∈ c7_lines ∧
    "  - CPU".toList ∈ c7_lines ∧ "  - Memory".toList ∈ c7_lines ∧
    List.indexOf ("  - CPU".toList) c7_lines <
      List.indexOf ("  - Memory".toList) c7_lines := by
  refine ⟨by decide, rfl, by decide, by decide, by decide, by decide, by decide,
    by decide, by decide, by decide, by decide⟩

/-- Claim C8: with the input readable, the layout stage not raising, the
client library importable and the credential absent, `main` fails with the
configuration error before any network call; at that point the prompt file
holds exactly the assembled prompt document, no image file is written, and the
prompt artifact is not rolled back or modified. -/
theorem C8_config_error_preserves_prompt (env : Env) (svg : Str) (nc ec : Nat)
    (h1 : env.input_svg = some svg)
    (h2 : read_layout_stats env.layout = Except.ok (nc, ec))
    (h3 : env.gen.openai_importable = true)
    (h4 : env.gen.api_key_present = false) :
    py_main env = (Except.error PyErr.configurationError,
      ⟨some (build_prompt svg (extract_svg_labels svg 80) (nc : Int) (ec : Int)
        env.config env.level env.block), none, false⟩) := by
  simp only [py_main, h1, h2, generate_image, h3, h4]
  simp

/-- Claim C8, witness: the theorem applied at a concrete environment with the
credential absent. -/
theorem C8_witness :
    py_main envC8 = (Except.error PyErr.configurationError,
      ⟨some (build_prompt ("<text>CPU</text>".toList)
        (extract_svg_labels ("<text>CPU</text>".toList) 80) ((0 : Nat) : Int) ((0 : Nat) : Int)
        ("Cfg".toList) ("L1".toList) []), none, false⟩) :=
  C8_config_error_preserves_prompt envC8 _ 0 0 rfl rfl rfl rfl

/-- Claim C9: a missing input diagram file makes `main` return exit status 2
with neither the prompt nor the image file written; any uncaught exception
during assembly or generation terminates the process with status 1, which is
non-zero and distinct from 2; and a fully successful run exits with status
0. -/
theorem C9_exit_status_discipline :
    (∀ env, env.input_svg = none →
      py_main env = (Except.ok 2, ⟨none, none, false⟩) ∧
        exit_status (py_main env).1 = 2) ∧
    (∀ env err eff, py_main env = (Except.error err, eff) →
      exit_status (py_main env).1 = 1 ∧ exit_status (py_main env).1 ≠ 0 ∧
        exit_status (py_main env).1 ≠ 2) ∧
    (∀ env svg nc ec bytes, env.input_svg = some svg →
      read_layout_stats env.layout = Except.ok (nc, ec) →
      env.gen.openai_importable = true →
      env.gen.api_key_present = true →
      env.gen.service_response = Except.ok bytes →
      (py_main env).1 = Except.ok 0 ∧ exit_status (py_main env).1 = 0) := by
  refine ⟨?_, ?_, ?_⟩
  · intro env h
    constructor
    · simp [py_main, h]
    · simp [py_main, h, exit_status]
  · intro env err eff h
    rw [h]
    refine ⟨rfl, ?_, ?_⟩ <;> simp [exit_status]
  · intro env svg nc ec bytes h1 h2 h3 h4 h5
    constructor
    · simp [py_main, h1, h2, generate_image, h3, h4, h5]
    · simp [py_main, h1, h2, generate_image, h3, h4, h5, exit_status]

/-- Claim C9, witness: the missing-input part applied at a concrete
environment whose input file does not exist. -/
theorem C9_witness :
    py_main envC9 = (Except.ok 2, ⟨none, none, false⟩) ∧
      exit_status (py_main envC9).1 = 2 :=
  C9_exit_status_discipline.1 envC9 rfl

/-- Claim C10: label extraction is cap-monotone; with the same source text,
the sequence extracted under a smaller cap is a prefix of the sequence
extracted under a larger cap. -/
theorem C10_extract_labels_cap_monotone (svg : Str) (m1 m2 : Nat) (h : m1 ≤ m2) :
    ∃ t, extract_svg_labels svg m1 ++ t = extract_svg_labels svg m2 :=
  collectLabels_mono m1 m2 h (findTextSpans svg) 0

/-- Claim C10, witness: the monotonicity theorem applied at caps 1 and 2 on a
two-label source. -/
theorem C10_witness :
    ∃ t, extract_svg_labels ("<text>A</text><text>B</text>".toList) 1 ++ t =
      extract_svg_labels ("<text>A</text><text>B</text>".toList) 2 :=
  C10_extract_labels_cap_monotone _ 1 2 (by decide)
